import Mathlib

/-!
Verification development for `bun-serve-static`: a shallow embedding of the
request-to-file resolver (`src/index.ts`, both API generations) together with
proofs of the specified properties.

Strings are modelled as `List Char`.  The JavaScript built-in
`decodeURIComponent` is modelled after the ECMA-262 Decode operation: each
`%hh` escape (two hex digits) contributes an octet, a leading octet below
0x80 stands alone, and a multi-byte leading octet must be followed by the
right number of escaped continuation octets forming a valid UTF-8 encoding
of a code point (no overlong forms, no surrogates, nothing above 0x10FFFF);
any violation raises `URIError`, modelled as `Option.none`.  JavaScript
falsiness matters twice in the source: the decoded empty string is falsy at
the `if (!filePath)` guards, and an empty `index` string is falsy in the
first generation's `index && path.join(root, index)`.
Node's `path.join` / `path.resolve` (posix flavour) are modelled by explicit
segment normalization.  The filesystem is an abstract existence predicate
`Str → Bool`; `Bun.file(p).exists()` is its application.  A fallback callback
that may throw is modelled as a function into `Except ε ρ`, and the handler
returns `Except ε (Outcome ρ)`: the `.error` case is an uncaught exception
propagating to the caller.
-/

namespace BunServeStatic

/-- A string, modelled as its list of characters. -/
abbrev Str := List Char

/-- Value of a hex digit character, `none` if the character is not a hex digit. -/
def hexVal (c : Char) : Option Nat :=
  if '0' ≤ c ∧ c ≤ '9' then some (c.toNat - '0'.toNat)
  else if 'a' ≤ c ∧ c ≤ 'f' then some (c.toNat - 'a'.toNat + 10)
  else if 'A' ≤ c ∧ c ≤ 'F' then some (c.toNat - 'A'.toNat + 10)
  else none

/-- Read the two hex digits that must follow a `%`, returning the octet value
and the remaining characters; `none` when they are missing or not hex. -/
def readEscape : Str → Option (Nat × Str)
  | c1 :: c2 :: rest =>
    match hexVal c1, hexVal c2 with
    | some h1, some h2 => some (16 * h1 + h2, rest)
    | _, _ => none
  | _ => none

/-- Read one escaped UTF-8 continuation octet (`%hh` with `0x80 ≤ hh < 0xC0`),
returning its 6-bit payload and the remaining characters. -/
def readContByte : Str → Option (Nat × Str)
  | '%' :: rest =>
    match readEscape rest with
    | some (b, rest2) => if 128 ≤ b ∧ b < 192 then some (b % 64, rest2) else none
    | none => none
  | _ => none

/-- Decode the escape sequence that started with leading octet `b`, consuming
the escaped continuation octets it requires from `rest`, per the ECMA-262
Decode operation: the octets must be a valid UTF-8 encoding of a code point
(no overlong forms, no surrogates, nothing above 0x10FFFF); otherwise the
decode errors (`none`). -/
def decodeEscaped (b : Nat) (rest : Str) : Option (Nat × Str) :=
  if b < 128 then some (b, rest)
  else if 194 ≤ b ∧ b ≤ 223 then
    match readContByte rest with
    | some (v1, r1) => some ((b - 192) * 64 + v1, r1)
    | none => none
  else if 224 ≤ b ∧ b ≤ 239 then
    match readContByte rest with
    | some (v1, r1) =>
      match readContByte r1 with
      | some (v2, r2) =>
        let cp := (b - 224) * 4096 + v1 * 64 + v2
        if 2048 ≤ cp ∧ ¬(55296 ≤ cp ∧ cp ≤ 57343) then some (cp, r2) else none
      | none => none
    | none => none
  else if 240 ≤ b ∧ b ≤ 244 then
    match readContByte rest with
    | some (v1, r1) =>
      match readContByte r1 with
      | some (v2, r2) =>
        match readContByte r2 with
        | some (v3, r3) =>
          let cp := (b - 240) * 262144 + v1 * 4096 + v2 * 64 + v3
          if 65536 ≤ cp ∧ cp ≤ 1114111 then some (cp, r3) else none
        | none => none
      | none => none
    | none => none
  else none

/-- One round of percent-decoding with an explicit character budget (each
step consumes at least one character, so a budget of the string's length
suffices).  A `%` starts an escape sequence decoded by `decodeEscaped`; all
other characters are copied unchanged. -/
def percentDecodeGo : Nat → Str → Option Str
  | _, [] => some []
  | 0, _ :: _ => none
  | fuel + 1, '%' :: rest =>
    match readEscape rest with
    | none => none
    | some (b, rest2) =>
      match decodeEscaped b rest2 with
      | none => none
      | some (cp, rest3) => (percentDecodeGo fuel rest3).map (Char.ofNat cp :: ·)
  | fuel + 1, c :: rest => (percentDecodeGo fuel rest).map (c :: ·)

/-- One round of percent-decoding, modelling `decodeURIComponent`; `none`
models a thrown `URIError`. -/
def percentDecode (s : Str) : Option Str := percentDecodeGo s.length s

/-- The loop body of `decodeUriDeep` (source lines 77–83), with an explicit
remaining-round counter.  A decode error at any round is caught and yields
`none`; a round whose output equals its input returns that output; running out
of rounds yields `none`. -/
def decodeUriDeepGo : Nat → Str → Option Str
  | 0, _ => none
  | n + 1, uri =>
    match percentDecode uri with
    | none => none
    | some decoded => if decoded = uri then some decoded else decodeUriDeepGo n decoded

/-- `decodeUriDeep` (source lines 75–86): repeatedly percent-decode for at
most 3 rounds until the value stabilizes; `none` on decode error or when the
bound is exhausted. -/
def decodeUriDeep (uri : Str) : Option Str := decodeUriDeepGo 3 uri

/-- Split a string at `/` separators (keeping empty segments, as the posix
path normalizer does before filtering them). -/
def splitOnSlash : Str → List Str
  | [] => [[]]
  | c :: rest =>
    if c = '/' then [] :: splitOnSlash rest
    else
      match splitOnSlash rest with
      | s :: tl => (c :: s) :: tl
      | [] => [[c]]

/-- Segment resolution of Node's posix `normalizeString`: drops empty and `.`
segments; `..` pops the previous real segment, and a `..` with nothing to pop
is dropped when the path is absolute and kept when it is relative. -/
def normSegs (isAbs : Bool) (acc : List Str) : List Str → List Str
  | [] => acc.reverse
  | seg :: rest =>
    if seg = [] ∨ seg = ['.'] then normSegs isAbs acc rest
    else if seg = ['.', '.'] then
      match acc with
      | [] => if isAbs then normSegs isAbs [] rest else normSegs isAbs [['.', '.']] rest
      | top :: accTl =>
        if top = ['.', '.'] then normSegs isAbs (seg :: acc) rest
        else normSegs isAbs accTl rest
    else normSegs isAbs (seg :: acc) rest

/-- Join segments with `/`. -/
def joinSegs : List Str → Str
  | [] => []
  | [s] => s
  | s :: rest => s ++ '/' :: joinSegs rest

/-- Node's posix `path.normalize`: collapses `.`/`..` and repeated slashes,
preserving absoluteness and a trailing slash. -/
def normalizePath (p : Str) : Str :=
  if p = [] then ['.']
  else
    let isAbs : Bool := p.head? = some '/'
    let trailing : Bool := p.getLast? = some '/'
    let s := joinSegs (normSegs isAbs [] (splitOnSlash p))
    let s := if s ≠ [] ∧ trailing then s ++ ['/'] else s
    if isAbs then '/' :: s else if s = [] then ['.'] else s

/-- Node's posix `path.join` on two arguments: concatenate the non-empty
parts with `/` and normalize; both parts empty gives `.`. -/
def pathJoin (a b : Str) : Str :=
  if a = [] then if b = [] then ['.'] else normalizePath b
  else if b = [] then normalizePath a
  else normalizePath (a ++ '/' :: b)

/-- Node's posix `path.resolve` of a single path against an absolute working
directory `cwd`: an absolute input is segment-normalized on its own, a
relative one is first appended to `cwd`.  The result is absolute with no
trailing slash. -/
def pathResolve (cwd p : Str) : Str :=
  let combined := if p.head? = some '/' then p else cwd ++ '/' :: p
  '/' :: joinSegs (normSegs true [] (splitOnSlash combined))

/-- The request, as seen by the resolver: the core reads only the pathname of
the request's URL (`new URL(req.url).pathname`) and passes the request itself
to a function fallback.  URL parsing belongs to the collaborator, so the
pathname is carried directly. -/
structure Request where
  pathname : Str
deriving DecidableEq

/-- The per-call resolution outcome: a response serving the file at an
absolute path, a response produced by the fallback callback, or the `null`
absence signal. -/
inductive Outcome (ρ : Type) where
  | serveFile (p : Str)
  | callback (r : ρ)
  | absent
deriving DecidableEq

/-- The `fallback` option: absent (`undefined`), a string path, or a callback
taking the request.  The callback may throw, modelled by `Except ε`. -/
inductive Fallback (ε ρ : Type) where
  | undef
  | str (s : Str)
  | fn (f : Request → Except ε ρ)

/-- `ServeStaticOptions` of the second-generation API: an optional fallback
and an optional exact-match mapping table (`Record<string, string>`,
modelled as an association list; the absent mapping is the empty list). -/
structure ServeStaticOptions (ε ρ : Type) where
  fallback : Fallback ε ρ
  mapping : List (Str × Str)

/-- Configuration-time resolution of the fallback (source lines 51–52): a
string fallback is joined onto the resolved root exactly once; the other
variants are unchanged. -/
def resolveFallback (root : Str) : Fallback ε ρ → Fallback ε ρ
  | .str s => .str (pathJoin root s)
  | fb => fb

/-- `fallbackOrNull` (source lines 54–60): no fallback gives the `null`
absence signal; a function fallback's (possibly awaited) result is returned
as-is, errors uncaught; a string fallback is probed for existence and served,
degrading to absence when missing. -/
def fallbackOrNull (fallback : Fallback ε ρ) (fs : Str → Bool) (req : Request) :
    Except ε (Outcome ρ) :=
  match fallback with
  | .undef => .ok .absent
  | .fn f => (f req).map Outcome.callback
  | .str s => if fs s then .ok (.serveFile s) else .ok .absent

/-- The mapping lookup (source line 64): `mapping?.[pathname] ?? pathname`,
an exact-key lookup on the raw pathname, falling back to the pathname. -/
def mappedPathname (mapping : List (Str × Str)) (pathname : Str) : Str :=
  (mapping.lookup pathname).getD pathname

/-- The per-request body after the mapping substitution (source lines 65–71):
decode deeply; `if (!filePath)` invoke the fallback — `!filePath` is true
both for the `null` of a failed decode and for the falsy empty decoded
string; otherwise join onto the root; if the result does not start with the
root invoke the fallback; probe existence and serve, otherwise invoke the
fallback. -/
def resolvePathname (root : Str) (fallback : Fallback ε ρ) (fs : Str → Bool)
    (req : Request) (pathname : Str) : Except ε (Outcome ρ) :=
  match decodeUriDeep pathname with
  | none => fallbackOrNull fallback fs req
  | some filePath =>
    if filePath = [] then fallbackOrNull fallback fs req
    else
      let absolutePath := pathJoin root filePath
      if !(root.isPrefixOf absolutePath) then fallbackOrNull fallback fs req
      else if fs absolutePath then .ok (.serveFile absolutePath)
      else fallbackOrNull fallback fs req

/-- The second-generation `serveStatic` (source lines 46–73): resolve the
root against the working directory, pre-resolve a string fallback, and return
the per-request handler.  `fs` is the filesystem existence predicate. -/
def serveStatic (cwd root : Str) (opts : ServeStaticOptions ε ρ) (fs : Str → Bool) :
    Request → Except ε (Outcome ρ) :=
  let root' := pathResolve cwd root
  let fallback := resolveFallback root' opts.fallback
  fun req => resolvePathname root' fallback fs req (mappedPathname opts.mapping req.pathname)

/-- `indexOrNull` of the first-generation API (source lines 8–13), applied to
the pre-resolved index path (`none` when no index was configured or the index
string was empty, hence falsy). -/
def indexOrNull (index : Option Str) (fs : Str → Bool) : Outcome ρ :=
  match index with
  | none => .absent
  | some p => if fs p then .serveFile p else .absent

/-- The per-request body of the first-generation API (source lines 15–23),
after the index was pre-resolved; its `if (!filePath)` likewise treats the
falsy empty decoded string like a failed decode. -/
def resolvePathnameV1 (root : Str) (index : Option Str) (fs : Str → Bool)
    (pathname : Str) : Outcome ρ :=
  match decodeUriDeep pathname with
  | none => indexOrNull index fs
  | some filePath =>
    if filePath = [] then indexOrNull index fs
    else
      let absolutePath := pathJoin root filePath
      if !(root.isPrefixOf absolutePath) then indexOrNull index fs
      else if fs absolutePath then .serveFile absolutePath
      else indexOrNull index fs

/-- The first-generation `serveStatic(root, index?)` (source lines 4–24).
`index && path.join(root, index)` keeps a falsy (empty or absent) index
falsy, so an empty index string behaves like no index. -/
def serveStaticV1 (cwd root : Str) (index : Option Str) (fs : Str → Bool) :
    Request → Outcome ρ :=
  let root' := pathResolve cwd root
  let index' := index.bind fun s => if s = [] then none else some (pathJoin root' s)
  fun req => resolvePathnameV1 root' index' fs req.pathname

/-- A resolution miss for a (post-mapping) pathname: the deep decode fails
or produces the falsy empty string, or the joined absolute path escapes the
root, or no file exists there.  Exactly the conditions under which the
handler falls through to the fallback resolver. -/
def isMiss (root pathname : Str) (fs : Str → Bool) : Bool :=
  match decodeUriDeep pathname with
  | none => true
  | some fp =>
    decide (fp = []) || !(root.isPrefixOf (pathJoin root fp)) ||
      !(fs (pathJoin root fp))

/-- A concrete filesystem for instantiating the theorems: regular files exist
at `/site/a.txt`, `/site/index.html` and `/site/real.txt` only. -/
def fsExample : Str → Bool := fun p =>
  p == "/site/a.txt".toList || p == "/site/index.html".toList ||
    p == "/site/real.txt".toList

/-- A concrete filesystem whose only regular file sits at `/site` itself. -/
def fsRootFile : Str → Bool := fun p => p == "/site".toList

/-! ### Core lemmas about the resolution pipeline -/

/-- Unfolding of the second-generation handler into its pipeline. -/
theorem serveStatic_eq (cwd root : Str) (opts : ServeStaticOptions ε ρ)
    (fs : Str → Bool) (req : Request) :
    serveStatic cwd root opts fs req =
      resolvePathname (pathResolve cwd root)
        (resolveFallback (pathResolve cwd root) opts.fallback) fs req
        (mappedPathname opts.mapping req.pathname) := rfl

/-- On a resolution miss the per-request body is exactly the fallback
resolver's result. -/
theorem resolvePathname_miss (root : Str) (fb : Fallback ε ρ) (fs : Str → Bool)
    (req : Request) (mp : Str) (h : isMiss root mp fs = true) :
    resolvePathname root fb fs req mp = fallbackOrNull fb fs req := by
  unfold isMiss at h
  unfold resolvePathname
  cases hd : decodeUriDeep mp with
  | none => simp
  | some fp =>
    rw [hd] at h
    simp only [Bool.or_eq_true, Bool.not_eq_true', decide_eq_true_eq] at h
    by_cases he : fp = []
    · simp [he]
    · rcases h with (h | h) | h
      · exact absurd h he
      · simp [he, h]
      · cases hp : root.isPrefixOf (pathJoin root fp)
        · simp [he, hp]
        · simp [he, hp, h]

/-- On a full hit — a nonempty decode that passes the containment guard and
the existence probe — the per-request body serves the joined absolute
path. -/
theorem resolvePathname_hit (root : Str) (fb : Fallback ε ρ) (fs : Str → Bool)
    (req : Request) (mp fp : Str) (hd : decodeUriDeep mp = some fp)
    (hne : fp ≠ [])
    (hpre : root.isPrefixOf (pathJoin root fp) = true)
    (hfs : fs (pathJoin root fp) = true) :
    resolvePathname root fb fs req mp = .ok (.serveFile (pathJoin root fp)) := by
  simp [resolvePathname, hd, hne, hpre, hfs]

/-- Every file served by the per-request body either has the root as a string
prefix (main resolution) or is the configured string-fallback path. -/
theorem resolvePathname_serveFile (root : Str) (fb : Fallback ε ρ) (fs : Str → Bool)
    (req : Request) (mp p : Str)
    (h : resolvePathname root fb fs req mp = .ok (.serveFile p)) :
    root.isPrefixOf p = true ∨ ∃ s, fb = .str s ∧ p = s := by
  have hfb : ∀ q : Str, fallbackOrNull fb fs req = .ok (.serveFile q) →
      ∃ s, fb = .str s ∧ q = s := by
    intro q hq
    unfold fallbackOrNull at hq
    cases fb with
    | undef => simp at hq
    | fn f =>
      cases hf : f req <;> simp [hf, Except.map] at hq
    | str s =>
      refine ⟨s, rfl, ?_⟩
      cases hfs : fs s
      · simp [hfs] at hq
      · simp [hfs] at hq; exact hq.symm
  unfold resolvePathname at h
  cases hd : decodeUriDeep mp with
  | none =>
    rw [hd] at h
    exact Or.inr (hfb p h)
  | some fp =>
    simp only [hd] at h
    by_cases he : fp = []
    · rw [if_pos he] at h
      exact Or.inr (hfb p h)
    · rw [if_neg he] at h
      by_cases hpre : root.isPrefixOf (pathJoin root fp) = true
      · simp only [hpre] at h
        by_cases hfs : fs (pathJoin root fp) = true
        · simp [hfs] at h
          exact Or.inl (h ▸ hpre)
        · rw [Bool.not_eq_true] at hfs
          simp [hfs] at h
          exact Or.inr (hfb p h)
      · rw [Bool.not_eq_true] at hpre
        simp [hpre] at h
        exact Or.inr (hfb p h)

/-- Any success of the bounded decode loop is a fixed point of one decode
round, whatever the round budget. -/
theorem decodeUriDeepGo_fixed (n : Nat) (uri s : Str)
    (h : decodeUriDeepGo n uri = some s) : percentDecode s = some s := by
  induction n generalizing uri with
  | zero => simp [decodeUriDeepGo] at h
  | succ n ih =>
    unfold decodeUriDeepGo at h
    cases hd : percentDecode uri with
    | none => simp [hd] at h
    | some d =>
      simp only [hd] at h
      by_cases he : d = uri
      · rw [if_pos he] at h
        have hs := Option.some.inj h
        subst hs
        rw [he] at hd ⊢
        exact hd
      · rw [if_neg he] at h
        exact ih d h

/-- Errors of the fallback resolver come only from a function fallback's
callback. -/
theorem fallbackOrNull_error (fb : Fallback ε ρ) (fs : Str → Bool) (req : Request)
    (e : ε) (h : fallbackOrNull fb fs req = .error e) :
    ∃ f, fb = .fn f ∧ f req = .error e := by
  cases fb with
  | undef => simp [fallbackOrNull] at h
  | str s =>
    simp only [fallbackOrNull] at h
    cases hfs : fs s <;> simp [hfs] at h
  | fn f =>
    refine ⟨f, rfl, ?_⟩
    simp only [fallbackOrNull] at h
    cases hf : f req with
    | ok r => rw [hf] at h; simp [Except.map] at h
    | error eSeen => rw [hf] at h; simp [Except.map] at h; rw [h]

/-- Errors of the per-request body come only from the fallback resolver. -/
theorem resolvePathname_error (root : Str) (fb : Fallback ε ρ) (fs : Str → Bool)
    (req : Request) (mp : Str) (e : ε)
    (h : resolvePathname root fb fs req mp = .error e) :
    fallbackOrNull fb fs req = .error e := by
  unfold resolvePathname at h
  cases hd : decodeUriDeep mp with
  | none => simp only [hd] at h; exact h
  | some fp =>
    simp only [hd] at h
    by_cases he : fp = []
    · rw [if_pos he] at h; exact h
    · rw [if_neg he] at h
      cases hp : root.isPrefixOf (pathJoin root fp)
      · simp [hp] at h; exact h
      · simp only [hp, Bool.not_true, Bool.false_eq_true, if_false] at h
        cases hfs : fs (pathJoin root fp)
        · simp [hfs] at h; exact h
        · simp [hfs] at h

/-- A resolved fallback that is a string comes from a string option, joined
onto the root. -/
theorem resolveFallback_str (root : Str) (fb : Fallback ε ρ) (s : Str)
    (h : resolveFallback root fb = .str s) :
    ∃ s₀, fb = .str s₀ ∧ s = pathJoin root s₀ := by
  cases fb with
  | undef => simp [resolveFallback] at h
  | fn f => simp [resolveFallback] at h
  | str s₀ =>
    refine ⟨s₀, rfl, ?_⟩
    simp [resolveFallback] at h
    exact h.symm

/-- The resolved fallback is a function exactly when the option was. -/
theorem resolveFallback_fn (root : Str) (fb : Fallback ε ρ)
    (f : Request → Except ε ρ) (h : resolveFallback root fb = .fn f) :
    fb = .fn f := by
  cases fb <;> simp [resolveFallback] at h ⊢
  exact h

/-- A pre-resolved string fallback behaves exactly like the first
generation's index probe. -/
theorem fallbackOrNull_str_as_index (p : Str) (fs : Str → Bool) (req : Request) :
    fallbackOrNull (Fallback.str p : Fallback ε ρ) fs req =
      .ok (indexOrNull (some p) fs) := by
  simp only [fallbackOrNull, indexOrNull]
  cases fs p <;> simp

/-- No fallback behaves exactly like an absent index. -/
theorem fallbackOrNull_undef_as_index (fs : Str → Bool) (req : Request) :
    fallbackOrNull (Fallback.undef : Fallback ε ρ) fs req =
      .ok (indexOrNull none fs) := rfl

/-- Bridge between the per-request bodies of the two API generations, for
any fallback that behaves like the given index. -/
theorem resolvePathname_as_v1 (root : Str) (fb : Fallback ε ρ) (idx : Option Str)
    (fs : Str → Bool) (req : Request) (pathname : Str)
    (hbr : fallbackOrNull fb fs req = .ok (indexOrNull idx fs)) :
    resolvePathname root fb fs req pathname =
      .ok (resolvePathnameV1 root idx fs pathname) := by
  unfold resolvePathname resolvePathnameV1
  cases hd : decodeUriDeep pathname with
  | none => simpa using hbr
  | some fp =>
    by_cases he : fp = []
    · simpa [he] using hbr
    · cases hp : root.isPrefixOf (pathJoin root fp)
      · simpa [he, hp] using hbr
      · cases hfs : fs (pathJoin root fp) <;> simp [he, hp, hfs, hbr]

/-- The empty mapping table never substitutes. -/
theorem mappedPathname_nil (p : Str) : mappedPathname [] p = p := rfl

/-! ### The claims -/

/-- C1: for every configured root and every request whose pathname contains
any number of percent-encoding layers of `../` within the decode bound, if
the final decoded form escapes the root (the joined absolute path does not
have the resolved root as a string prefix), the handler never serves that
file: its outcome is exactly the configured fallback resolver's result,
which is the fallback's response or the `null` absence signal. -/
theorem c1_escaped_path_gets_fallback (cwd root : Str)
    (opts : ServeStaticOptions ε ρ) (fs : Str → Bool) (req : Request) (fp : Str)
    (hd : decodeUriDeep (mappedPathname opts.mapping req.pathname) = some fp)
    (hesc : (pathResolve cwd root).isPrefixOf
        (pathJoin (pathResolve cwd root) fp) = false) :
    serveStatic cwd root opts fs req =
      fallbackOrNull (resolveFallback (pathResolve cwd root) opts.fallback) fs req := by
  rw [serveStatic_eq]
  apply resolvePathname_miss
  unfold isMiss
  rw [hd]
  simp [hesc]

/-- Witness for C1: the double-`../` traversal `/..%2f..%2fsecret.txt`
decodes to `/../../secret.txt`, whose join escapes `/site`; with no fallback
the outcome is absence even though the filesystem claims every path exists. -/
theorem c1_escaped_path_gets_fallback_w :
    serveStatic "/".toList "/site".toList
        (⟨Fallback.undef, []⟩ : ServeStaticOptions Unit Unit)
        (fun _ => true) ⟨"/..%2f..%2fsecret.txt".toList⟩ =
      fallbackOrNull (resolveFallback (pathResolve "/".toList "/site".toList)
        Fallback.undef) (fun _ => true) ⟨"/..%2f..%2fsecret.txt".toList⟩ :=
  c1_escaped_path_gets_fallback "/".toList "/site".toList _ _ _
    "/../../secret.txt".toList (by decide) (by decide)

/-- C2: the handler joins the decoded relative path onto the resolved root
with filesystem-join semantics and serves that file only when the resulting
absolute path has the root's string as a prefix; when the prefix check fails
the fallback resolver is invoked instead; and every served file either has
the root as a string prefix or is the pre-resolved string-fallback path.
The serving direction requires the decoded path to be nonempty, since the
source's `if (!filePath)` guard sends the falsy empty decoded string to the
fallback before the join. -/
theorem c2_containment_guard (cwd root : Str) (opts : ServeStaticOptions ε ρ)
    (fs : Str → Bool) (req : Request) :
    (∀ p, serveStatic cwd root opts fs req = .ok (.serveFile p) →
        (pathResolve cwd root).isPrefixOf p = true ∨
          ∃ s, opts.fallback = .str s ∧ p = pathJoin (pathResolve cwd root) s) ∧
    (∀ fp, decodeUriDeep (mappedPathname opts.mapping req.pathname) = some fp →
        (pathResolve cwd root).isPrefixOf (pathJoin (pathResolve cwd root) fp) = false →
        serveStatic cwd root opts fs req =
          fallbackOrNull (resolveFallback (pathResolve cwd root) opts.fallback) fs req) ∧
    (∀ fp, decodeUriDeep (mappedPathname opts.mapping req.pathname) = some fp →
        fp ≠ [] →
        (pathResolve cwd root).isPrefixOf (pathJoin (pathResolve cwd root) fp) = true →
        fs (pathJoin (pathResolve cwd root) fp) = true →
        serveStatic cwd root opts fs req =
          .ok (.serveFile (pathJoin (pathResolve cwd root) fp))) := by
  refine ⟨?_, ?_, ?_⟩
  · intro p h
    rw [serveStatic_eq] at h
    rcases resolvePathname_serveFile _ _ _ _ _ _ h with hpre | ⟨s, hs, hp⟩
    · exact Or.inl hpre
    · rcases resolveFallback_str _ _ _ hs with ⟨s₀, hfb, hjoin⟩
      exact Or.inr ⟨s₀, hfb, by rw [hp, hjoin]⟩
  · intro fp hd hesc
    rw [serveStatic_eq]
    apply resolvePathname_miss
    unfold isMiss
    rw [hd]
    simp [hesc]
  · intro fp hd hne hpre hfs
    rw [serveStatic_eq]
    exact resolvePathname_hit _ _ _ _ _ _ hd hne hpre hfs

/-- Witness for C2: with root `/site` and a file at `/site/a.txt`, requesting
`/a.txt` serves `/site/a.txt`, whose string starts with `/site`. -/
theorem c2_containment_guard_w :
    serveStatic "/".toList "/site".toList
        (⟨Fallback.undef, []⟩ : ServeStaticOptions Unit Unit)
        fsExample ⟨"/a.txt".toList⟩ =
      .ok (.serveFile "/site/a.txt".toList) :=
  (c2_containment_guard "/".toList "/site".toList _ fsExample ⟨"/a.txt".toList⟩).2.2
    "/a.txt".toList (by decide) (by decide) (by decide) (by decide)

/-- C8: the handler is deterministic: two evaluations of the same configured
instance on the same request against the same filesystem yield the same
outcome. -/
theorem c8_deterministic (cwd root : Str) (opts : ServeStaticOptions ε ρ)
    (fs : Str → Bool) (req : Request) (o₁ o₂ : Except ε (Outcome ρ))
    (h₁ : o₁ = serveStatic cwd root opts fs req)
    (h₂ : o₂ = serveStatic cwd root opts fs req) : o₁ = o₂ :=
  h₁.trans h₂.symm

/-- Witness for C8 at a concrete configuration and request. -/
theorem c8_deterministic_w :
    (Except.ok (Outcome.serveFile "/site/a.txt".toList) : Except Unit (Outcome Unit)) =
      Except.ok (Outcome.serveFile "/site/a.txt".toList) :=
  c8_deterministic "/".toList "/site".toList ⟨Fallback.undef, []⟩ fsExample
    ⟨"/a.txt".toList⟩ _ _ (by rfl) (by rfl)

/-- C10: every non-`null` value returned by `decodeUriDeep` is a fixed point
of the percent-decoder: one more decode round returns the same string. -/
theorem c10_decode_fixed_point (uri s : Str) (h : decodeUriDeep uri = some s) :
    percentDecode s = some s :=
  decodeUriDeepGo_fixed 3 uri s h

/-- Witness for C10: `/a%2Fb` deep-decodes to `/a/b`, a decode fixed point. -/
theorem c10_decode_fixed_point_w :
    percentDecode "/a/b".toList = some "/a/b".toList :=
  c10_decode_fixed_point "/a%2Fb".toList "/a/b".toList (by decide)

/-- C3: the normalizer percent-decodes the (possibly mapped) pathname for at
most 3 rounds, stopping successfully as soon as a round returns its input and
yielding that fully decoded string (shown for stabilization at each round
within the bound); a pathname still changing after 3 decode rounds yields
invalid, and an invalid normalization makes the handler's outcome exactly the
fallback resolver's result — never a file served from the request path. -/
theorem c3_decode_bounded_rounds :
    (∀ u : Str, percentDecode u = some u → decodeUriDeep u = some u) ∧
    (∀ u d : Str, percentDecode u = some d → d ≠ u → percentDecode d = some d →
        decodeUriDeep u = some d) ∧
    (∀ u d1 d2 : Str, percentDecode u = some d1 → d1 ≠ u →
        percentDecode d1 = some d2 → d2 ≠ d1 → percentDecode d2 = some d2 →
        decodeUriDeep u = some d2) ∧
    (∀ u d1 d2 d3 : Str, percentDecode u = some d1 → d1 ≠ u →
        percentDecode d1 = some d2 → d2 ≠ d1 → percentDecode d2 = some d3 →
        d3 ≠ d2 → decodeUriDeep u = none) ∧
    (∀ (cwd root : Str) (opts : ServeStaticOptions ε ρ) (fs : Str → Bool)
        (req : Request),
        decodeUriDeep (mappedPathname opts.mapping req.pathname) = none →
        serveStatic cwd root opts fs req =
          fallbackOrNull (resolveFallback (pathResolve cwd root) opts.fallback) fs req) := by
  refine ⟨?_, ?_, ?_, ?_, ?_⟩
  · intro u h
    simp [decodeUriDeep, decodeUriDeepGo, h]
  · intro u d h1 hne h2
    simp [decodeUriDeep, decodeUriDeepGo, h1, h2, hne]
  · intro u d1 d2 h1 hne1 h2 hne2 h3
    simp [decodeUriDeep, decodeUriDeepGo, h1, h2, h3, hne1, hne2]
  · intro u d1 d2 d3 h1 hne1 h2 hne2 h3 hne3
    simp [decodeUriDeep, decodeUriDeepGo, h1, h2, h3, hne1, hne2, hne3]
  · intro cwd root opts fs req hd
    rw [serveStatic_eq]
    apply resolvePathname_miss
    unfold isMiss
    rw [hd]

/-- Witness for C3: `%2525252F` still changes on its third decode round
(`%25252F`, `%252F`, `%2F`), so the deep decode yields invalid, and the
handler's outcome for that pathname is absence under no fallback. -/
theorem c3_decode_bounded_rounds_w :
    decodeUriDeep "%2525252F".toList = none ∧
    serveStatic "/".toList "/site".toList
        (⟨Fallback.undef, []⟩ : ServeStaticOptions Unit Unit)
        (fun _ => true) ⟨"%2525252F".toList⟩ =
      fallbackOrNull (resolveFallback (pathResolve "/".toList "/site".toList)
        Fallback.undef) (fun _ => true) ⟨"%2525252F".toList⟩ :=
  ⟨(@c3_decode_bounded_rounds Unit Unit).2.2.2.1 "%2525252F".toList "%25252F".toList
      "%252F".toList "%2F".toList (by decide) (by decide) (by decide) (by decide)
      (by decide) (by decide),
    (@c3_decode_bounded_rounds Unit Unit).2.2.2.2 "/".toList "/site".toList _ _ _ (by decide)⟩

/-- C4: malformed percent-encoding (a decode error at any round, e.g. a stray
literal `%`) makes the normalization invalid, the handler then takes the
fallback path, and no exception from decoding is ever propagated: any error
the handler returns comes from a configured function fallback's callback. -/
theorem c4_malformed_decode_never_throws :
    (∀ u : Str, percentDecode u = none → decodeUriDeep u = none) ∧
    (∀ u d : Str, percentDecode u = some d → d ≠ u → percentDecode d = none →
        decodeUriDeep u = none) ∧
    (∀ u d1 d2 : Str, percentDecode u = some d1 → d1 ≠ u →
        percentDecode d1 = some d2 → d2 ≠ d1 → percentDecode d2 = none →
        decodeUriDeep u = none) ∧
    (∀ (cwd root : Str) (opts : ServeStaticOptions ε ρ) (fs : Str → Bool)
        (req : Request),
        decodeUriDeep (mappedPathname opts.mapping req.pathname) = none →
        serveStatic cwd root opts fs req =
          fallbackOrNull (resolveFallback (pathResolve cwd root) opts.fallback) fs req) ∧
    (∀ (cwd root : Str) (opts : ServeStaticOptions ε ρ) (fs : Str → Bool)
        (req : Request) (e : ε),
        serveStatic cwd root opts fs req = .error e →
        ∃ f, opts.fallback = .fn f ∧ f req = .error e) := by
  refine ⟨?_, ?_, ?_, ?_, ?_⟩
  · intro u h
    simp [decodeUriDeep, decodeUriDeepGo, h]
  · intro u d h1 hne h2
    simp [decodeUriDeep, decodeUriDeepGo, h1, h2, hne]
  · intro u d1 d2 h1 hne1 h2 hne2 h3
    simp [decodeUriDeep, decodeUriDeepGo, h1, h2, h3, hne1, hne2]
  · intro cwd root opts fs req hd
    rw [serveStatic_eq]
    apply resolvePathname_miss
    unfold isMiss
    rw [hd]
  · intro cwd root opts fs req e h
    rw [serveStatic_eq] at h
    rcases fallbackOrNull_error _ _ _ _ (resolvePathname_error _ _ _ _ _ _ h) with
      ⟨f, hf, hfe⟩
    exact ⟨f, resolveFallback_fn _ _ _ hf, hfe⟩

/-- Witness for C4: the stray-percent pathname `/100%` fails its first decode
round, the handler falls through to the fallback resolver, and with no
fallback configured the handler returns `ok` (no exception). -/
theorem c4_malformed_decode_never_throws_w :
    decodeUriDeep "/100%".toList = none ∧
    serveStatic "/".toList "/site".toList
        (⟨Fallback.undef, []⟩ : ServeStaticOptions Unit Unit)
        (fun _ => true) ⟨"/100%".toList⟩ =
      fallbackOrNull (resolveFallback (pathResolve "/".toList "/site".toList)
        Fallback.undef) (fun _ => true) ⟨"/100%".toList⟩ :=
  ⟨(@c4_malformed_decode_never_throws Unit Unit).1 "/100%".toList (by decide),
    (@c4_malformed_decode_never_throws Unit Unit).2.2.2.1 "/".toList "/site".toList _ _ _
      (by decide)⟩

/-- C5: the raw (undecoded) pathname is looked up as an exact key in the
mapping table before any decoding; on a hit the mapped value replaces the
pathname and still passes through the normalizer and containment guard (the
handler equals the post-mapping body applied to the mapped value, so the
served content is the content at the mapped relative path, for every
filesystem, regardless of what exists at the literal pathname); on a miss
the pathname is used unchanged.  The serving conjunct requires the mapped
value's decode to be nonempty, since the source's `if (!filePath)` guard
sends the falsy empty decoded string to the fallback. -/
theorem c5_mapping_pre_substitution (cwd root : Str) (opts : ServeStaticOptions ε ρ)
    (fs : Str → Bool) (req : Request) :
    (∀ v, opts.mapping.lookup req.pathname = some v →
        serveStatic cwd root opts fs req =
          resolvePathname (pathResolve cwd root)
            (resolveFallback (pathResolve cwd root) opts.fallback) fs req v) ∧
    (opts.mapping.lookup req.pathname = none →
        serveStatic cwd root opts fs req =
          resolvePathname (pathResolve cwd root)
            (resolveFallback (pathResolve cwd root) opts.fallback) fs req
            req.pathname) ∧
    (∀ v fp, opts.mapping.lookup req.pathname = some v →
        decodeUriDeep v = some fp →
        fp ≠ [] →
        (pathResolve cwd root).isPrefixOf (pathJoin (pathResolve cwd root) fp) = true →
        fs (pathJoin (pathResolve cwd root) fp) = true →
        serveStatic cwd root opts fs req =
          .ok (.serveFile (pathJoin (pathResolve cwd root) fp))) := by
  refine ⟨?_, ?_, ?_⟩
  · intro v hv
    rw [serveStatic_eq]
    unfold mappedPathname
    rw [hv]
    rfl
  · intro hv
    rw [serveStatic_eq]
    unfold mappedPathname
    rw [hv]
    rfl
  · intro v fp hv hd hne hpre hfs
    rw [serveStatic_eq]
    unfold mappedPathname
    rw [hv]
    exact resolvePathname_hit _ _ _ _ _ _ hd hne hpre hfs

/-- Witness for C5: with mapping `/api/data ↦ /real.txt` and a file at
`/site/real.txt`, requesting `/api/data` serves `/site/real.txt`. -/
theorem c5_mapping_pre_substitution_w :
    serveStatic "/".toList "/site".toList
        (⟨Fallback.undef, [("/api/data".toList, "/real.txt".toList)]⟩ :
          ServeStaticOptions Unit Unit) fsExample ⟨"/api/data".toList⟩ =
      .ok (.serveFile "/site/real.txt".toList) :=
  (c5_mapping_pre_substitution "/".toList "/site".toList _ fsExample
      ⟨"/api/data".toList⟩).2.2 "/real.txt".toList "/real.txt".toList
    (by decide) (by decide) (by decide) (by decide) (by decide)

/-- C6: a string fallback is joined onto the resolved root once at
configuration time, and on every resolution miss that pre-resolved path is
probed like a second existence-probe target: served when it exists, the
`null` absence signal when it does not — in both cases an `ok` outcome,
never an error. -/
theorem c6_string_fallback_probe (cwd root s : Str) (mapping : List (Str × Str))
    (fs : Str → Bool) (req : Request)
    (hmiss : isMiss (pathResolve cwd root)
        (mappedPathname mapping req.pathname) fs = true) :
    resolveFallback (pathResolve cwd root) (Fallback.str s : Fallback ε ρ) =
      .str (pathJoin (pathResolve cwd root) s) ∧
    serveStatic cwd root (⟨Fallback.str s, mapping⟩ : ServeStaticOptions ε ρ) fs req =
      (if fs (pathJoin (pathResolve cwd root) s) = true then
        .ok (.serveFile (pathJoin (pathResolve cwd root) s))
      else .ok .absent) := by
  constructor
  · rfl
  · rw [serveStatic_eq, resolvePathname_miss _ _ _ _ _ hmiss]
    rfl

/-- Witness for C6: with root `/site`, string fallback `index.html` and a
file at `/site/index.html`, the miss on `/missing.txt` probes and serves the
pre-resolved `/site/index.html`. -/
theorem c6_string_fallback_probe_w :
    resolveFallback (pathResolve "/".toList "/site".toList)
        (Fallback.str "index.html".toList : Fallback Unit Unit) =
      .str (pathJoin (pathResolve "/".toList "/site".toList) "index.html".toList) ∧
    serveStatic "/".toList "/site".toList
        (⟨Fallback.str "index.html".toList, []⟩ : ServeStaticOptions Unit Unit)
        fsExample ⟨"/missing.txt".toList⟩ =
      (if fsExample (pathJoin (pathResolve "/".toList "/site".toList)
          "index.html".toList) = true then
        .ok (.serveFile (pathJoin (pathResolve "/".toList "/site".toList)
          "index.html".toList))
      else .ok .absent) :=
  c6_string_fallback_probe "/".toList "/site".toList "index.html".toList []
    fsExample ⟨"/missing.txt".toList⟩ (by decide)

/-- C7: with a function fallback, every resolution miss invokes the callback
on the original request and returns its result unconditionally — no
existence check is applied to it (the equation holds for every filesystem),
a thrown error propagates uncaught to the caller, and a returned response is
the final outcome. -/
theorem c7_function_fallback_propagates (cwd root : Str)
    (f : Request → Except ε ρ) (mapping : List (Str × Str)) (fs : Str → Bool)
    (req : Request)
    (hmiss : isMiss (pathResolve cwd root)
        (mappedPathname mapping req.pathname) fs = true) :
    serveStatic cwd root ⟨Fallback.fn f, mapping⟩ fs req =
      (f req).map Outcome.callback ∧
    (∀ e, f req = .error e →
        serveStatic cwd root ⟨Fallback.fn f, mapping⟩ fs req = .error e) ∧
    (∀ r, f req = .ok r →
        serveStatic cwd root ⟨Fallback.fn f, mapping⟩ fs req = .ok (.callback r)) := by
  have hmain : serveStatic cwd root ⟨Fallback.fn f, mapping⟩ fs req =
      (f req).map Outcome.callback := by
    rw [serveStatic_eq, resolvePathname_miss _ _ _ _ _ hmiss]
    rfl
  refine ⟨hmain, ?_, ?_⟩
  · intro e he
    rw [hmain, he]
    rfl
  · intro r hr
    rw [hmain, hr]
    rfl

/-- Witness for C7: a callback returning `7` makes the miss outcome
`callback 7`; a callback throwing `3` makes the handler return that very
error. -/
theorem c7_function_fallback_propagates_w :
    serveStatic "/".toList "/site".toList
        ⟨Fallback.fn (fun _ => (.ok 7 : Except Nat Nat)), []⟩ fsExample
        ⟨"/missing.txt".toList⟩ = .ok (.callback 7) ∧
    serveStatic "/".toList "/site".toList
        ⟨Fallback.fn (fun _ => (.error 3 : Except Nat Nat)), []⟩ fsExample
        ⟨"/missing.txt".toList⟩ = .error 3 :=
  ⟨(c7_function_fallback_propagates "/".toList "/site".toList _ [] fsExample
      ⟨"/missing.txt".toList⟩ (by decide)).2.2 7 rfl,
    (c7_function_fallback_propagates "/".toList "/site".toList _ [] fsExample
      ⟨"/missing.txt".toList⟩ (by decide)).2.1 3 rfl⟩

/-- C9 as stated is false at the empty fallback string: the first generation
treats an empty `index` as falsy (no index), while the second generation
joins the empty string onto the root, yielding the root itself as the
pre-resolved fallback path.  When a regular file exists at the root path, a
missing request serves it in the second generation but yields absence in the
first. -/
theorem c9_counterexample :
    ¬ (serveStatic "/".toList "/site".toList
          (⟨Fallback.str [], []⟩ : ServeStaticOptions Unit Unit) fsRootFile
          ⟨"/missing.txt".toList⟩ =
        .ok (serveStaticV1 "/".toList "/site".toList (some []) fsRootFile
          ⟨"/missing.txt".toList⟩)) := by
  intro h
  have h1 : serveStatic "/".toList "/site".toList
      (⟨Fallback.str [], []⟩ : ServeStaticOptions Unit Unit) fsRootFile
      ⟨"/missing.txt".toList⟩ = .ok (.serveFile "/site".toList) := by rfl
  have h2 : (serveStaticV1 "/".toList "/site".toList (some []) fsRootFile
      ⟨"/missing.txt".toList⟩ : Outcome Unit) = .absent := by rfl
  rw [h1, h2] at h
  exact Outcome.noConfusion (Except.ok.inj h)

/-- C9 amended: for every root and every nonempty string fallback, the
first-generation handler with that positional index and the
second-generation handler with that string fallback and no mapping produce
equal outcomes on every request and filesystem; likewise the two generations
with no fallback configured. -/
theorem c9_generations_equivalent (cwd root s : Str) (hs : s ≠ [])
    (fs : Str → Bool) (req : Request) :
    serveStatic cwd root (⟨Fallback.str s, []⟩ : ServeStaticOptions ε ρ) fs req =
      .ok (serveStaticV1 cwd root (some s) fs req) ∧
    serveStatic cwd root (⟨Fallback.undef, []⟩ : ServeStaticOptions ε ρ) fs req =
      .ok (serveStaticV1 cwd root none fs req) := by
  constructor
  · have hv1 : (serveStaticV1 cwd root (some s) fs req : Outcome ρ) =
        resolvePathnameV1 (pathResolve cwd root)
          (some (pathJoin (pathResolve cwd root) s)) fs req.pathname := by
      unfold serveStaticV1
      simp [hs]
    rw [serveStatic_eq, mappedPathname_nil, hv1]
    exact resolvePathname_as_v1 _ _ _ _ _ _ (fallbackOrNull_str_as_index _ _ _)
  · rw [serveStatic_eq, mappedPathname_nil]
    exact resolvePathname_as_v1 _ _ _ _ _ _ (fallbackOrNull_undef_as_index _ _)

/-- Witness for the amended C9, at the nonempty fallback `index.html`. -/
theorem c9_generations_equivalent_w :
    serveStatic "/".toList "/site".toList
        (⟨Fallback.str "index.html".toList, []⟩ : ServeStaticOptions Unit Unit)
        fsExample ⟨"/missing.txt".toList⟩ =
      .ok (serveStaticV1 "/".toList "/site".toList (some "index.html".toList)
        fsExample ⟨"/missing.txt".toList⟩) ∧
    serveStatic "/".toList "/site".toList
        (⟨Fallback.undef, []⟩ : ServeStaticOptions Unit Unit)
        fsExample ⟨"/missing.txt".toList⟩ =
      .ok (serveStaticV1 "/".toList "/site".toList none fsExample
        ⟨"/missing.txt".toList⟩) :=
  c9_generations_equivalent "/".toList "/site".toList "index.html".toList
    (by decide) fsExample ⟨"/missing.txt".toList⟩

end BunServeStatic
